import Mathlib

/-!
Verification of the convex-mobile bridge core (src/rust/src/lib.rs).

The development shallowly embeds the bridge:
  - the value marshaler `parse_json_args` together with the JSON-to-backend
    value conversion it applies to every argument;
  - the boundary converter `handle_direct_function_result`;
  - the one-shot operation pipelines `query`, `mutation`, `action` and the
    argument-handling prefix of `subscribe`, including where each runs
    relative to the spawned task boundary (a panic inside a spawned task
    surfaces as a join error; a panic on the calling task does not);
  - the subscription delivery loop built on a biased two-way select;
  - the `SubscriptionHandle` one-shot cancellation sender;
  - the single-flight Connection Cell protocol of `connected_client`.

Panics are modelled explicitly with the `Outcome` type, so that a locally
fatal path (`expect` or `unwrap`) is distinguishable from a returned error.
-/

namespace ConvexMobile

/-- Result of running a piece of Rust code that may panic: either a normal
value or a panic with the panic message. -/
inductive Outcome (α : Type) where
  | ok (a : α)
  | panic (msg : String)
deriving DecidableEq

/-- Modelled from the spec: the JSON value shape produced by the external
JSON parser (serde_json::Value) for one caller-supplied argument string.
Numbers are carried as rationals; this development reasons about which
numeric KIND values map to, not about binary floating-point rounding. -/
inductive Json where
  | null
  | bool (b : Bool)
  | num (q : Rat)
  | str (s : String)
  | arr (xs : List Json)
  | obj (fields : List (String × Json))

/-- The backend value model (convex::Value), at the granularity the bridge
observes: it has a floating-point numeric kind and a distinct integer kind. -/
inductive Value where
  | Null
  | Boolean (b : Bool)
  | Int64 (n : Int)
  | Float64 (q : Rat)
  | String (s : String)
  | Array (xs : List Value)
  | Object (fields : List (String × Value))

/-- Insert a key and value into a key-sorted association list, replacing any
existing binding: the model of BTreeMap insertion used when collecting the
argument map and object fields. -/
def insertSorted (k : String) (v : Value) :
    List (String × Value) → List (String × Value)
  | [] => [(k, v)]
  | (k2, v2) :: rest =>
    if k = k2 then (k, v) :: rest
    else if k < k2 then (k, v) :: (k2, v2) :: rest
    else (k2, v2) :: insertSorted k v rest

/-- Modelled from the spec: a field name the backend value model cannot
represent (reserved system prefix or empty), making the JSON-to-value
conversion fallible on shapes the backend cannot represent. -/
def invalidFieldName (k : String) : Bool :=
  match k.data with
  | [] => true
  | c :: _ => c = '$'

mutual

/-- Modelled from the spec: the external conversion from a parsed JSON value
to the backend value model (convex::Value::try_from applied by
`parse_json_args`). Every JSON number becomes the floating-point kind
`Float64`; object fields are collected into a key-sorted map; a shape the
backend cannot represent yields `none`. Pinned by the unit tests in
src/rust/src/lib.rs (boolean, number, list and object argument tests). -/
def jsonToValue : Json → Option Value
  | .null => some .Null
  | .bool b => some (.Boolean b)
  | .num q => some (.Float64 q)
  | .str s => some (.String s)
  | .arr xs =>
    match jsonListToValue xs with
    | some vs => some (.Array vs)
    | none => none
  | .obj fields =>
    match jsonObjToValue fields with
    | some vs => some (.Object vs)
    | none => none

/-- Converts a list of JSON array elements, failing if any element fails. -/
def jsonListToValue : List Json → Option (List Value)
  | [] => some []
  | j :: js =>
    match jsonToValue j, jsonListToValue js with
    | some v, some vs => some (v :: vs)
    | _, _ => none

/-- Converts JSON object fields into a key-sorted backend object, failing on
an unrepresentable field name or an unconvertible field value. -/
def jsonObjToValue : List (String × Json) → Option (List (String × Value))
  | [] => some []
  | (k, j) :: rest =>
    if invalidFieldName k then none
    else
      match jsonToValue j, jsonObjToValue rest with
      | some v, some vs => some (insertSorted k v vs)
      | _, _ => none

end

/-- The value marshaler `parse_json_args` of src/rust/src/lib.rs. Each
argument arrives as the external JSON parse result of its caller-supplied
string (`none` models a string that is not valid JSON). A parse failure hits
the first `expect` and a conversion failure hits the second `expect`: both
are panics, not returned errors. Successful entries are collected into a
key-sorted map (BTreeMap). -/
def parse_json_args : List (String × Option Json) → Outcome (List (String × Value))
  | [] => .ok []
  | (k, pj) :: rest =>
    match pj with
    | none => .panic "Invalid JSON data from FFI"
    | some j =>
      match jsonToValue j with
      | none => .panic "Invalid Convex data from FFI"
      | some v =>
        match parse_json_args rest with
        | .ok m => .ok (insertSorted k v m)
        | .panic msg => .panic msg

/-- The backend result type convex::FunctionResult consumed by the bridge:
a success value, an application-raised ConvexError with message and data, or
a server-raised error message. -/
inductive FunctionResult where
  | Value (v : ConvexMobile.Value)
  | ErrorMessage (msg : String)
  | ConvexError (message : String) (data : ConvexMobile.Value)

/-- The caller-facing error taxonomy `ClientError` of src/rust/src/lib.rs. -/
inductive ClientError where
  | InternalError (msg : String)
  | ConvexError (data : String)
  | ServerError (msg : String)
deriving DecidableEq

/-- The boundary converter `handle_direct_function_result` of
src/rust/src/lib.rs. The parameter `ser` models the external JSON
serialization of a backend value (serde_json::to_string of the converted
serde value). On a success value a serialization failure is mapped with
map_err into `InternalError`; on a ConvexError the re-encoding of the data
is unwrapped, so a failure there is a panic; an ErrorMessage becomes
`ServerError` with the original message. -/
def handle_direct_function_result (ser : Value → Except String String)
    (result : FunctionResult) : Outcome (Except ClientError String) :=
  match result with
  | .Value v =>
    match ser v with
    | .ok s => .ok (.ok s)
    | .error e => .ok (.error (.InternalError e))
  | .ConvexError _message data =>
    match ser data with
    | .ok s => .ok (.error (.ConvexError s))
    | .error e => .panic e
  | .ErrorMessage msg => .ok (.error (.ServerError msg))

/-- Awaiting a spawned task (rt.spawn(...).await): a panic inside the task is
contained by the runtime and surfaces to the awaiter as a join error. -/
def spawn_join {α : Type} : Outcome α → Except String α
  | .ok a => .ok a
  | .panic msg => .error msg

/-- The `query` pipeline of src/rust/src/lib.rs: `parse_json_args` runs on
the calling task (client.query(name, parse_json_args(args))), so a panic
there propagates to the caller; a backend failure is converted by the
question-mark operator into `InternalError`; the result goes through
`handle_direct_function_result`. -/
def query (backend : List (String × Value) → Except String FunctionResult)
    (ser : Value → Except String String)
    (args : List (String × Option Json)) : Outcome (Except ClientError String) :=
  match parse_json_args args with
  | .panic msg => .panic msg
  | .ok a =>
    match backend a with
    | .error e => .ok (.error (.InternalError e))
    | .ok r => handle_direct_function_result ser r

/-- The `mutation` pipeline of src/rust/src/lib.rs: the argument parsing and
the backend call both run inside rt.spawn, so a panic in `parse_json_args`
becomes a join error, which the question-mark operators convert into
`InternalError`; the result then goes through `handle_direct_function_result`
on the calling task. -/
def mutation (backend : List (String × Value) → Except String FunctionResult)
    (ser : Value → Except String String)
    (args : List (String × Option Json)) : Outcome (Except ClientError String) :=
  match spawn_join
      (match parse_json_args args with
       | .panic msg => Outcome.panic msg
       | .ok a => Outcome.ok (backend a)) with
  | .error msg => .ok (.error (.InternalError msg))
  | .ok (.error e) => .ok (.error (.InternalError e))
  | .ok (.ok r) => handle_direct_function_result ser r

/-- The `action` pipeline of src/rust/src/lib.rs, structurally identical to
`mutation`: parsing and the backend call run inside rt.spawn. -/
def action (backend : List (String × Value) → Except String FunctionResult)
    (ser : Value → Except String String)
    (args : List (String × Option Json)) : Outcome (Except ClientError String) :=
  match spawn_join
      (match parse_json_args args with
       | .panic msg => Outcome.panic msg
       | .ok a => Outcome.ok (backend a)) with
  | .error msg => .ok (.error (.InternalError msg))
  | .ok (.error e) => .ok (.error (.InternalError e))
  | .ok (.ok r) => handle_direct_function_result ser r

/-- The argument-handling prefix of `internal_subscribe` in
src/rust/src/lib.rs: `parse_json_args` runs on the calling task inside
client.subscribe(name, parse_json_args(args)), so a panic there propagates;
a failure of the initial subscribe request is converted into
`InternalError`; success hands back a subscription handle (modelled as Unit). -/
def subscribe_call (sub : List (String × Value) → Except String Unit)
    (args : List (String × Option Json)) : Outcome (Except ClientError Unit) :=
  match parse_json_args args with
  | .panic msg => .panic msg
  | .ok a =>
    match sub a with
    | .error e => .ok (.error (.InternalError e))
    | .ok _ => .ok (.ok ())

/-- One observer callback of a QuerySubscriber. -/
inductive ObsCall where
  | on_update (value : String)
  | on_error (message : String) (value : Option String)
deriving DecidableEq

/-- How a run of the subscription delivery loop left off. -/
inductive LoopExit where
  | running
  | streamEnded
  | cancelled
  | panicked (msg : String)
deriving DecidableEq

/-- The readiness of the two select arms at one completed iteration of the
delivery loop: `stream = some x` means the stream arm is ready with item `x`
(`some r` an item, `none` end of stream); `stream = none` means the stream
arm is not ready. `cancelReady` tells whether the cancellation signal has
resolved by this scheduling step. -/
structure IterInput where
  stream : Option (Option FunctionResult)
  cancelReady : Bool

/-- The subscription delivery loop spawned by `internal_subscribe` in
src/rust/src/lib.rs. Each iteration is a biased two-way select with the
stream arm listed first: if the stream arm is ready it wins, even when the
cancellation signal is ready in the same scheduling step; the cancel arm
fires only when the stream arm is not ready. Items are classified exactly as
in the source: a value is serialized (unwrap, so a serialization failure is
a panic) and delivered via on_update; an ErrorMessage is delivered via
on_error with no data; a ConvexError is delivered via on_error with its data
serialized (again unwrap); end of stream breaks out of the loop; the cancel
arm breaks out of the loop. The result collects the observer calls made and
how the loop left off. -/
def subscription_loop (ser : Value → Except String String) :
    List IterInput → List ObsCall × LoopExit
  | [] => ([], .running)
  | it :: rest =>
    match it.stream with
    | some (some (.Value v)) =>
      match ser v with
      | .ok s =>
        (.on_update s :: (subscription_loop ser rest).1,
         (subscription_loop ser rest).2)
      | .error e => ([], .panicked e)
    | some (some (.ErrorMessage m)) =>
      (.on_error m none :: (subscription_loop ser rest).1,
       (subscription_loop ser rest).2)
    | some (some (.ConvexError m d)) =>
      match ser d with
      | .ok s =>
        (.on_error m (some s) :: (subscription_loop ser rest).1,
         (subscription_loop ser rest).2)
      | .error e => ([], .panicked e)
    | some none => ([], .streamEnded)
    | none =>
      if it.cancelReady then ([], .cancelled) else subscription_loop ser rest

/-- An event on a SubscriptionHandle: an explicit cancel call, or the handle
being dropped. -/
inductive HEvent where
  | cancel
  | dropHandle

/-- One step of `SubscriptionHandle` from src/rust/src/lib.rs. The state is
the content of the mutex-guarded Option of the one-shot sender. `cancel`
takes the sender out and sends through it when present; dropping the handle
drops a still-present sender, which also resolves the receiver. The second
component counts cancellation signals delivered to the receiver by the step. -/
def handle_step : Option Unit → HEvent → Option Unit × Nat
  | some _, .cancel => (none, 1)
  | none, .cancel => (none, 0)
  | some _, .dropHandle => (none, 1)
  | none, .dropHandle => (none, 0)

/-- Total number of cancellation signals delivered to the receiver over a
sequence of handle events starting from the given sender state. -/
def run_handle : Option Unit → List HEvent → Nat
  | _, [] => 0
  | st, e :: evs =>
    match handle_step st e with
    | (st2, n) => n + run_handle st2 evs

/-- An abstract connected backend client handle; clones of the same handle
are equal. -/
abbrev Client := Nat

/-- Modelled from the spec: the state of the Connection Cell (the
async_once_cell OnceCell used by `connected_client`, whose internals are an
external collaborator): uninitialized, an in-flight attempt owned by one
leader caller, or ready with the cached connected client. -/
inductive CellState where
  | uninit
  | busy (leader : Nat)
  | ready (c : Client)
deriving DecidableEq

/-- The local progress of one caller operation through `connected_client`. -/
inductive Phase where
  | idle
  | leading
  | waiting
  | got (c : Client)
  | failed (e : String)
deriving DecidableEq

/-- Global state of one BridgeInstance restricted to the Connection Cell:
the cell, each caller operation phase, and counters of connect attempts
started and connect attempts failed. -/
structure BridgeState where
  cell : CellState
  phase : Nat → Phase
  attempts : Nat
  failures : Nat

/-- Scheduling events of the Connection Cell protocol. -/
inductive Ev where
  | arrive (i : Nat)
  | join (i : Nat)
  | hit (i : Nat)
  | resolveOk (i : Nat) (c : Client)
  | resolveErr (i : Nat) (e : String)
  | wake (i : Nat)
  | takeover (i : Nat)

/-- Modelled from the spec: one step of the Connection Cell protocol of
`connected_client` (src/rust/src/lib.rs) over the documented
get_or_try_init contract. A caller reaching an uninitialized cell starts the
connect attempt and becomes the leader; a caller reaching a cell with an
in-flight attempt awaits that same attempt; a caller reaching a ready cell
clones the cached client. A successful attempt caches the client and wakes
waiters with clones of it; a failed attempt returns the cell to
uninitialized and reports the error to the leader, after which a waiting
caller may start a fresh attempt of its own. -/
def step (s : BridgeState) : Ev → Option BridgeState
  | .arrive i =>
    if s.phase i = .idle ∧ s.cell = .uninit then
      some { s with cell := .busy i,
                    phase := Function.update s.phase i .leading,
                    attempts := s.attempts + 1 }
    else none
  | .join i =>
    match s.cell with
    | .busy _ =>
      if s.phase i = .idle then
        some { s with phase := Function.update s.phase i .waiting }
      else none
    | _ => none
  | .hit i =>
    match s.cell with
    | .ready c =>
      if s.phase i = .idle then
        some { s with phase := Function.update s.phase i (.got c) }
      else none
    | _ => none
  | .resolveOk i c =>
    if s.phase i = .leading ∧ s.cell = .busy i then
      some { s with cell := .ready c,
                    phase := Function.update s.phase i (.got c) }
    else none
  | .resolveErr i e =>
    if s.phase i = .leading ∧ s.cell = .busy i then
      some { s with cell := .uninit,
                    phase := Function.update s.phase i (.failed e),
                    failures := s.failures + 1 }
    else none
  | .wake i =>
    match s.cell with
    | .ready c =>
      if s.phase i = .waiting then
        some { s with phase := Function.update s.phase i (.got c) }
      else none
    | _ => none
  | .takeover i =>
    if s.phase i = .waiting ∧ s.cell = .uninit then
      some { s with cell := .busy i,
                    phase := Function.update s.phase i .leading,
                    attempts := s.attempts + 1 }
    else none

/-- Run of the Connection Cell protocol over a list of scheduling events. -/
def run (s : BridgeState) : List Ev → Option BridgeState
  | [] => some s
  | e :: tr =>
    match step s e with
    | some s2 => run s2 tr
    | none => none

/-- The state of a fresh BridgeInstance: no connection, every caller idle,
no attempt started. -/
def initState : BridgeState :=
  { cell := .uninit, phase := fun _ => .idle, attempts := 0, failures := 0 }

/-- Whether the cell currently accounts for one started attempt: an
in-flight attempt or a cached success. -/
def cellFlag : CellState → Nat
  | .uninit => 0
  | .busy _ => 1
  | .ready _ => 1

/-- The Connection Cell invariant: started attempts are exactly the failed
attempts plus the one attempt an in-flight or ready cell accounts for, and a
caller holding a client can only have gotten it from the ready cell. -/
def CellInv (s : BridgeState) : Prop :=
  s.attempts = s.failures + cellFlag s.cell ∧
  ∀ i c, s.phase i = .got c → s.cell = .ready c

/-- A concrete schedule: two callers race to an unconnected bridge, the
second joins the attempt started by the first, the attempt succeeds with
client 7, the waiter wakes with a clone. -/
def tr0 : List Ev := [.arrive 0, .join 1, .resolveOk 0 7, .wake 1]

/-- The state the concrete schedule `tr0` reaches. -/
def s0 : BridgeState := (run initState tr0).getD initState

/-- The state reached by one caller starting a connect attempt on a fresh
bridge, before the attempt resolves. -/
def sA : BridgeState := (run initState [.arrive 0]).getD initState

/-- A backend stub whose calls succeed with a Null value result. -/
def bk0 : List (String × Value) → Except String FunctionResult :=
  fun _ => .ok (.Value .Null)

/-- A serializer stub that succeeds on every value. -/
def ser0 : Value → Except String String := fun _ => .ok "null"

/-- A subscribe-request stub that always succeeds. -/
def sb0 : List (String × Value) → Except String Unit := fun _ => .ok ()

/-- An argument map whose single value string is not valid JSON. -/
def badArgs : List (String × Option Json) := [("a", none)]

/-- A consumed handle (sender already taken) never delivers another signal. -/
theorem run_handle_none : ∀ evs : List HEvent, run_handle none evs = 0
  | [] => rfl
  | e :: evs => by
    cases e <;> simp [run_handle, handle_step, run_handle_none evs]

/-- Claim C7: on a SubscriptionHandle, at most one cancellation signal is
ever delivered over any event sequence; a sequence beginning with cancel
delivers exactly one signal and every later event is a no-op; the first
cancel consumes the one-shot sender, and cancel or drop on a consumed handle
delivers nothing. -/
theorem at_most_one_cancel_signal :
    (∀ evs : List HEvent, run_handle (some ()) evs ≤ 1) ∧
    (∀ evs : List HEvent, run_handle (some ()) (HEvent.cancel :: evs) = 1) ∧
    (handle_step (some ()) .cancel).1 = none ∧
    handle_step none .cancel = (none, 0) ∧
    handle_step none .dropHandle = (none, 0) := by
  refine ⟨?_, ?_, rfl, rfl, rfl⟩
  · intro evs
    cases evs with
    | nil => simp [run_handle]
    | cons e t => cases e <;> simp [run_handle, handle_step, run_handle_none]
  · intro evs
    simp [run_handle, handle_step, run_handle_none]

/-- Claim C9: every JSON number, integer-looking or fractional, decodes to
the floating-point kind Float64 and never to the integer kind, and the
argument map with a mapped to 42 and b mapped to 42.42 encodes to Float64 42
and Float64 42.42 in key order. -/
theorem json_numbers_decode_to_float64 :
    (∀ q : Rat, jsonToValue (.num q) = some (.Float64 q)) ∧
    (∀ (q : Rat) (n : Int), jsonToValue (.num q) ≠ some (.Int64 n)) ∧
    parse_json_args [("a", some (.num 42)), ("b", some (.num (4242 / 100)))]
      = .ok [("a", .Float64 42), ("b", .Float64 (4242 / 100))] := by
  refine ⟨fun q => by simp [jsonToValue], ?_, ?_⟩
  · intro q n h
    simp [jsonToValue] at h
  · simp only [parse_json_args, jsonToValue, insertSorted]
    norm_num
    have h1 : ¬(("a" : String) = "b") := by decide
    have h2 : (['a'] : List Char) < ['b'] := by decide
    rw [if_neg h1, if_pos h2]

/-- Claim C2: handle_direct_function_result maps a Value result to a success
payload holding its JSON encoding, a ConvexError result to
ClientError.ConvexError carrying the re-encoded data, and an ErrorMessage
result to ClientError.ServerError carrying the original message, given that
the external serialization succeeds on the values involved. -/
theorem handle_direct_function_result_spec
    (ser : Value → Except String String) (v d : Value) (s sd m msg : String)
    (hv : ser v = .ok s) (hd : ser d = .ok sd) :
    handle_direct_function_result ser (.Value v) = .ok (.ok s) ∧
    handle_direct_function_result ser (.ConvexError m d)
      = .ok (.error (.ConvexError sd)) ∧
    handle_direct_function_result ser (.ErrorMessage msg)
      = .ok (.error (.ServerError msg)) := by
  refine ⟨?_, ?_, rfl⟩
  · simp [handle_direct_function_result, hv]
  · simp [handle_direct_function_result, hd]

/-- Witness for claim C2 at a concrete serializer and concrete results. -/
theorem handle_direct_function_result_spec_witness :
    handle_direct_function_result ser0 (.Value .Null) = .ok (.ok "null") ∧
    handle_direct_function_result ser0 (.ConvexError "m" .Null)
      = .ok (.error (.ConvexError "null")) ∧
    handle_direct_function_result ser0 (.ErrorMessage "boom")
      = .ok (.error (.ServerError "boom")) :=
  handle_direct_function_result_spec ser0 .Null .Null "null" "null" "m" "boom"
    rfl rfl

/-- Claim C10: in handle_direct_function_result, a serialization failure on
a success Value is returned as InternalError with no panic, while a
serialization failure on the data of a ConvexError result panics the
calling task: the two branches are asymmetric. -/
theorem serialization_failure_asymmetry
    (ser : Value → Except String String) (v d : Value) (e1 e2 m : String)
    (hv : ser v = .error e1) (hd : ser d = .error e2) :
    handle_direct_function_result ser (.Value v)
      = .ok (.error (.InternalError e1)) ∧
    handle_direct_function_result ser (.ConvexError m d) = .panic e2 := by
  constructor
  · simp [handle_direct_function_result, hv]
  · simp [handle_direct_function_result, hd]

/-- Witness for claim C10 at a concrete failing serializer. -/
theorem serialization_failure_asymmetry_witness :
    handle_direct_function_result (fun _ => .error "boom") (.Value .Null)
      = .ok (.error (.InternalError "boom")) ∧
    handle_direct_function_result (fun _ => .error "boom")
        (.ConvexError "m" .Null)
      = .panic "boom" :=
  serialization_failure_asymmetry (fun _ => .error "boom") .Null .Null
    "boom" "boom" "m" rfl rfl

/-- Claim C1: evaluating the four operations on an argument map holding a
string that is not valid JSON. query and subscribe panic on the calling task
(the expect in parse_json_args is locally fatal there), so they do not
return InternalError as the claim states; mutation and action contain the
panic inside the spawned task, whose join error is converted to
InternalError. -/
theorem malformed_json_locally_fatal_in_query_and_subscribe :
    query bk0 ser0 badArgs = .panic "Invalid JSON data from FFI" ∧
    subscribe_call sb0 badArgs = .panic "Invalid JSON data from FFI" ∧
    mutation bk0 ser0 badArgs
      = .ok (.error (.InternalError "Invalid JSON data from FFI")) ∧
    action bk0 ser0 badArgs
      = .ok (.error (.InternalError "Invalid JSON data from FFI")) :=
  ⟨rfl, rfl, rfl, rfl⟩

/-- Claim C5: when a stream item and the cancellation signal are ready in
the same scheduling step, the biased select delivers the item first, for
each of the three item kinds; cancellation is honored at the next iteration
whose stream arm is not ready, discarding nothing already resolved. -/
theorem tie_break_delivers_pending_item
    (ser : Value → Except String String) (v d : Value) (sv sd m : String)
    (rest : List IterInput)
    (hv : ser v = .ok sv) (hd : ser d = .ok sd) :
    subscription_loop ser
        (⟨some (some (.Value v)), true⟩ :: ⟨none, true⟩ :: rest)
      = ([.on_update sv], .cancelled) ∧
    subscription_loop ser
        (⟨some (some (.ErrorMessage m)), true⟩ :: ⟨none, true⟩ :: rest)
      = ([.on_error m none], .cancelled) ∧
    subscription_loop ser
        (⟨some (some (.ConvexError m d)), true⟩ :: ⟨none, true⟩ :: rest)
      = ([.on_error m (some sd)], .cancelled) := by
  refine ⟨?_, ?_, ?_⟩ <;> simp [subscription_loop, hv, hd]

/-- Witness for claim C5 at a concrete serializer, item and schedule. -/
theorem tie_break_delivers_pending_item_witness :
    subscription_loop ser0
        (⟨some (some (.Value .Null)), true⟩ :: ⟨none, true⟩ :: [])
      = ([.on_update "null"], .cancelled) ∧
    subscription_loop ser0
        (⟨some (some (.ErrorMessage "m")), true⟩ :: ⟨none, true⟩ :: [])
      = ([.on_error "m" none], .cancelled) ∧
    subscription_loop ser0
        (⟨some (some (.ConvexError "m" .Null)), true⟩ :: ⟨none, true⟩ :: [])
      = ([.on_error "m" (some "null")], .cancelled) :=
  tie_break_delivers_pending_item ser0 .Null .Null "null" "null" "m" [] rfl rfl

/-- Claim C8: the stream ending is a normal terminal state: the loop breaks
at once with no observer calls from that point and the exit is never a
panic, whatever the cancellation flag and the rest of the schedule. -/
theorem stream_end_graceful (ser : Value → Except String String) (c : Bool)
    (rest : List IterInput) :
    subscription_loop ser (⟨some none, c⟩ :: rest) = ([], .streamEnded) ∧
    ∀ msg, (subscription_loop ser (⟨some none, c⟩ :: rest)).2
      ≠ .panicked msg := by
  refine ⟨rfl, ?_⟩
  intro msg h
  exact LoopExit.noConfusion h

/-- Counterexample to claim C6 as stated: a schedule in which the
cancellation signal has already resolved (the cancel arm is ready at the
first iteration) yet an on_update call still occurs and the loop does not
exit as cancelled, because the stream arm is ready in the same scheduling
step and the biased select favors it. -/
theorem cancel_resolved_item_still_delivered_cex :
    (subscription_loop ser0 [⟨some (some (.Value .Null)), true⟩]).1
      = [.on_update "null"] ∧
    (subscription_loop ser0 [⟨some (some (.Value .Null)), true⟩]).2
      ≠ .cancelled ∧
    (subscription_loop ser0 [⟨some (some (.Value .Null)), true⟩]).1
      ≠ [] := by
  refine ⟨rfl, ?_, ?_⟩ <;> decide

/-- Once the loop has exited, the remaining schedule is ignored: appending
further scheduling steps changes neither the calls made nor the exit. -/
theorem subscription_loop_append_of_exit (ser : Value → Except String String)
    (s1 : List IterInput) :
    ∀ s2 : List IterInput, (subscription_loop ser s1).2 ≠ .running →
      subscription_loop ser (s1 ++ s2) = subscription_loop ser s1 := by
  induction s1 with
  | nil => exact fun s2 h => absurd rfl h
  | cons it rest ih =>
    intro s2 h
    obtain ⟨st, cr⟩ := it
    cases st with
    | none =>
      cases cr with
      | true => rfl
      | false =>
        simp only [List.cons_append, List.append_eq, subscription_loop] at h ⊢
        exact ih s2 h
    | some item =>
      cases item with
      | none => rfl
      | some r =>
        cases r with
        | Value v =>
          cases hsv : ser v with
          | ok s =>
            simp only [List.cons_append, List.append_eq, subscription_loop, hsv] at h ⊢
            rw [ih s2 h]
          | error e =>
            simp only [List.cons_append, List.append_eq, subscription_loop, hsv]
        | ErrorMessage m =>
          simp only [List.cons_append, List.append_eq, subscription_loop] at h ⊢
          rw [ih s2 h]
        | ConvexError m d =>
          cases hsd : ser d with
          | ok s =>
            simp only [List.cons_append, List.append_eq, subscription_loop, hsd] at h ⊢
            rw [ih s2 h]
          | error e =>
            simp only [List.cons_append, List.append_eq, subscription_loop, hsd]

/-- Claim C6, amended: the cancel arm firing (the first iteration at which
the cancellation signal has resolved and the stream arm is not ready) makes
the loop exit at once with no call, and the exit is permanent: whatever
schedule follows a run that ended cancelled is ignored, so no further
observer calls ever occur. An item ready in the same scheduling step as the
signal is still delivered first, per the tie-break. -/
theorem cancel_exit_permanent (ser : Value → Except String String)
    (rest : List IterInput) :
    subscription_loop ser (⟨none, true⟩ :: rest) = ([], .cancelled) ∧
    ∀ s1 s2 : List IterInput, (subscription_loop ser s1).2 = .cancelled →
      subscription_loop ser (s1 ++ s2) = subscription_loop ser s1 := by
  refine ⟨rfl, ?_⟩
  intro s1 s2 h
  refine subscription_loop_append_of_exit ser s1 s2 ?_
  rw [h]
  exact fun hh => LoopExit.noConfusion hh

/-- The fresh bridge state satisfies the Connection Cell invariant. -/
theorem cellInv_init : CellInv initState := by
  constructor
  · rfl
  · intro i c h
    exact Phase.noConfusion h

/-- Each Connection Cell protocol step preserves the invariant. -/
theorem step_preserves_cellInv (s s2 : BridgeState) (e : Ev)
    (hinv : CellInv s) (h : step s e = some s2) : CellInv s2 := by
  obtain ⟨h1, h2⟩ := hinv
  cases e with
  | arrive i =>
    simp only [step] at h
    split at h
    case isFalse => exact Option.noConfusion h
    case isTrue hc =>
      obtain ⟨hp, hcell⟩ := hc
      injection h with h
      subst h
      rw [hcell] at h1 h2
      constructor
      · simp only [cellFlag] at h1 ⊢
        omega
      · intro j c hj
        dsimp only at hj ⊢
        rcases eq_or_ne j i with rfl | hne
        · rw [Function.update_same] at hj
          exact Phase.noConfusion hj
        · rw [Function.update_noteq hne] at hj
          exact CellState.noConfusion (h2 j c hj)
  | join i =>
    simp only [step] at h
    split at h
    case h_2 => exact Option.noConfusion h
    case h_1 leader hcell =>
      split at h
      case isFalse => exact Option.noConfusion h
      case isTrue hp =>
        injection h with h
        subst h
        rw [hcell] at h1 h2
        constructor
        · dsimp only
          rw [hcell]
          exact h1
        · intro j c hj
          dsimp only at hj ⊢
          rcases eq_or_ne j i with rfl | hne
          · rw [Function.update_same] at hj
            exact Phase.noConfusion hj
          · rw [Function.update_noteq hne] at hj
            rw [hcell]
            exact h2 j c hj
  | hit i =>
    simp only [step] at h
    split at h
    case h_2 => exact Option.noConfusion h
    case h_1 c0 hcell =>
      split at h
      case isFalse => exact Option.noConfusion h
      case isTrue hp =>
        injection h with h
        subst h
        constructor
        · exact h1
        · intro j c hj
          dsimp only at hj ⊢
          rcases eq_or_ne j i with rfl | hne
          · rw [Function.update_same] at hj
            injection hj with hc
            rw [hcell, hc]
          · rw [Function.update_noteq hne] at hj
            exact h2 j c hj
  | resolveOk i c =>
    simp only [step] at h
    split at h
    case isFalse => exact Option.noConfusion h
    case isTrue hc =>
      obtain ⟨hp, hcell⟩ := hc
      injection h with h
      subst h
      rw [hcell] at h1 h2
      constructor
      · simp only [cellFlag] at h1 ⊢
        omega
      · intro j c2 hj
        dsimp only at hj ⊢
        rcases eq_or_ne j i with rfl | hne
        · rw [Function.update_same] at hj
          injection hj with hc2
          rw [hc2]
        · rw [Function.update_noteq hne] at hj
          exact CellState.noConfusion (h2 j c2 hj)
  | resolveErr i e =>
    simp only [step] at h
    split at h
    case isFalse => exact Option.noConfusion h
    case isTrue hc =>
      obtain ⟨hp, hcell⟩ := hc
      injection h with h
      subst h
      rw [hcell] at h1 h2
      constructor
      · simp only [cellFlag] at h1 ⊢
        omega
      · intro j c2 hj
        dsimp only at hj ⊢
        rcases eq_or_ne j i with rfl | hne
        · rw [Function.update_same] at hj
          exact Phase.noConfusion hj
        · rw [Function.update_noteq hne] at hj
          exact CellState.noConfusion (h2 j c2 hj)
  | wake i =>
    simp only [step] at h
    split at h
    case h_2 => exact Option.noConfusion h
    case h_1 c0 hcell =>
      split at h
      case isFalse => exact Option.noConfusion h
      case isTrue hp =>
        injection h with h
        subst h
        constructor
        · exact h1
        · intro j c hj
          dsimp only at hj ⊢
          rcases eq_or_ne j i with rfl | hne
          · rw [Function.update_same] at hj
            injection hj with hc
            rw [hcell, hc]
          · rw [Function.update_noteq hne] at hj
            exact h2 j c hj
  | takeover i =>
    simp only [step] at h
    split at h
    case isFalse => exact Option.noConfusion h
    case isTrue hc =>
      obtain ⟨hp, hcell⟩ := hc
      injection h with h
      subst h
      rw [hcell] at h1 h2
      constructor
      · simp only [cellFlag] at h1 ⊢
        omega
      · intro j c hj
        dsimp only at hj ⊢
        rcases eq_or_ne j i with rfl | hne
        · rw [Function.update_same] at hj
          exact Phase.noConfusion hj
        · rw [Function.update_noteq hne] at hj
          exact CellState.noConfusion (h2 j c hj)

/-- A run of the Connection Cell protocol preserves the invariant. -/
theorem run_preserves_cellInv :
    ∀ (tr : List Ev) (s s2 : BridgeState),
      CellInv s → run s tr = some s2 → CellInv s2
  | [], s, s2, hinv, h => by
    simp only [run] at h
    injection h with h
    subst h
    exact hinv
  | e :: tr, s, s2, hinv, h => by
    simp only [run] at h
    cases hs : step s e with
    | none =>
      rw [hs] at h
      exact Option.noConfusion h
    | some s1 =>
      rw [hs] at h
      exact run_preserves_cellInv tr s1 s2
        (step_preserves_cellInv s s1 e hinv hs) h

/-- Claim C3: in every reachable failure-free execution of the Connection
Cell protocol on a fresh bridge, at most one connect attempt is ever
started, and whenever two operations have both obtained a client, exactly
one attempt was started and they hold clones of the same connected client. -/
theorem single_flight_connect (tr : List Ev) (s : BridgeState)
    (h : run initState tr = some s) (hf : s.failures = 0) :
    s.attempts ≤ 1 ∧
    ∀ i j ci cj, s.phase i = .got ci → s.phase j = .got cj →
      s.attempts = 1 ∧ ci = cj := by
  obtain ⟨h1, h2⟩ := run_preserves_cellInv tr initState s cellInv_init h
  constructor
  · rw [h1, hf]
    cases s.cell <;> simp [cellFlag]
  · intro i j ci cj hi hj
    have hci := h2 i ci hi
    have hcj := h2 j cj hj
    rw [hci] at hcj
    injection hcj with hc
    exact ⟨by rw [h1, hf, hci]; rfl, hc⟩

/-- Witness for claim C3: two callers race, the second joins the attempt of
the first, the single attempt resolves with client 7 and both callers end
up holding client 7 with exactly one attempt started. -/
theorem single_flight_connect_witness :
    s0.failures = 0 ∧ s0.attempts = 1 ∧
    s0.phase 0 = .got 7 ∧ s0.phase 1 = .got 7 := by
  have h : run initState tr0 = some s0 := rfl
  have hf : s0.failures = 0 := rfl
  have h0 : s0.phase 0 = .got 7 := by decide
  have h1 : s0.phase 1 = .got 7 := by decide
  exact ⟨hf, ((single_flight_connect tr0 s0 h hf).2 0 1 7 7 h0 h1).1, h0, h1⟩

/-- Claim C4: a failed connect attempt is not cached: the step reporting the
failure returns the cell to uninitialized and changes no attempt count, and
from the resulting state any idle caller can start a fresh attempt that may
succeed, ending with that caller holding the new client. -/
theorem connect_failure_not_cached (s : BridgeState) (i : Nat) (e : String)
    (hl : s.phase i = .leading) (hb : s.cell = .busy i) :
    ∃ s2, step s (.resolveErr i e) = some s2 ∧
      s2.cell = .uninit ∧ s2.attempts = s.attempts ∧
      ∀ j c, s2.phase j = .idle →
        ∃ s3, run s2 [.arrive j, .resolveOk j c] = some s3 ∧
          s3.phase j = .got c ∧ s3.attempts = s.attempts + 1 ∧
          s3.cell = .ready c := by
  refine ⟨{ s with
            cell := .uninit,
            phase := Function.update s.phase i (.failed e),
            failures := s.failures + 1 }, ?_, rfl, rfl, ?_⟩
  · simp [step, hl, hb]
  · intro j c hj
    dsimp only at hj
    have harr : step { s with
        cell := CellState.uninit,
        phase := Function.update s.phase i (.failed e),
        failures := s.failures + 1 } (.arrive j)
        = some { s with
          cell := .busy j,
          phase := Function.update
            (Function.update s.phase i (.failed e)) j .leading,
          attempts := s.attempts + 1,
          failures := s.failures + 1 } := by
      simp [step, hj]
    have hres : step { s with
        cell := CellState.busy j,
        phase := Function.update
          (Function.update s.phase i (.failed e)) j .leading,
        attempts := s.attempts + 1,
        failures := s.failures + 1 } (.resolveOk j c)
        = some { s with
          cell := .ready c,
          phase := Function.update (Function.update
            (Function.update s.phase i (.failed e)) j .leading) j (.got c),
          attempts := s.attempts + 1,
          failures := s.failures + 1 } := by
      simp [step, Function.update_same]
    refine ⟨{ s with
        cell := .ready c,
        phase := Function.update (Function.update
          (Function.update s.phase i (.failed e)) j .leading) j (.got c),
        attempts := s.attempts + 1,
        failures := s.failures + 1 }, ?_, ?_, rfl, rfl⟩
    · simp only [run, harr, hres]
    · exact Function.update_same j (Phase.got c)
        (Function.update
          (Function.update s.phase i (.failed e)) j .leading)

/-- Witness for claim C4: the single leader of a fresh bridge fails its
attempt; the cell is uninitialized again, and a second caller then starts a
fresh attempt that succeeds with client 9. -/
theorem connect_failure_not_cached_witness :
    ∃ s2, step sA (.resolveErr 0 "network down") = some s2 ∧
      s2.cell = .uninit ∧ s2.attempts = sA.attempts ∧
      ∀ j c, s2.phase j = .idle →
        ∃ s3, run s2 [.arrive j, .resolveOk j c] = some s3 ∧
          s3.phase j = .got c ∧ s3.attempts = sA.attempts + 1 ∧
          s3.cell = .ready c :=
  connect_failure_not_cached sA 0 "network down" (by decide) (by decide)

/-- Witness for the amended claim C6 at a concrete cancelled schedule. -/
theorem cancel_exit_permanent_witness :
    subscription_loop ser0
        ([⟨none, true⟩] ++ [⟨some (some (.Value .Null)), false⟩])
      = subscription_loop ser0 [⟨none, true⟩] ∧
    subscription_loop ser0 [⟨none, true⟩] = ([], .cancelled) :=
  ⟨(cancel_exit_permanent ser0 []).2 [⟨none, true⟩]
      [⟨some (some (.Value .Null)), false⟩] rfl,
   (cancel_exit_permanent ser0 []).1⟩

end ConvexMobile
